import Mathlib

/-!
Verification of the cereal identity-registry / alias-resolver and generic
container adapter (src/include/cereal/types/common.hpp and
src/include/cereal/types/container.hpp) against their specification.

The C++ sources are shallowly embedded: archives are explicit state
(a list of emitted 32-bit fields on save, a stream value on load),
machine integers are Nat (identities are 32-bit values, the role flag is
bit 31), exceptions are explicit error values, and the external
collaborators (registry lookup, element codec) are parameters.
-/

namespace Cereal

/-- Bit mask selecting the most significant bit of a 32-bit identity.
Modelled from the spec: the role flag is bit 31 of the identity field.
(The constant detail::msb_32bit is declared in cereal/cereal.hpp, which is
outside the shown sources; the spec fixes it as the MSB of a 32-bit id.) -/
def msb_32bit : Nat := 2 ^ 31

/-- Outcome of the raw-pointer load path of common.hpp.
formatError is the cereal::Exception thrown when the loaded id carries the
role flag ("Raw pointer of type T* can only be loaded if a
std::shared_ptr<T> with same target was loaded before"); lookupError is a
failure propagated from the external ar.getSharedPointer collaborator. -/
inductive LoadOutcome (ε Ptr : Type) where
  | ok (p : Ptr)
  | formatError
  | lookupError (e : ε)
deriving DecidableEq, Repr

/-- Converts the result of the external registry lookup
(ar.getSharedPointer) into the load outcome: a resolved owner binds the
raw pointer, a lookup failure is propagated. -/
def lookupOutcome {ε Ptr : Type} : Except ε Ptr → LoadOutcome ε Ptr
  | Except.ok p => LoadOutcome.ok p
  | Except.error e => LoadOutcome.lookupError e

/-- Embedding of CEREAL_LOAD_FUNCTION_NAME(Archive and ar, T* and rawPointer)
of common.hpp, lines 114-127. The argument id is the 32-bit value read
for the "id" field; getSharedPointer is the external registry lookup.
The second component logs, in order, the identities passed to
ar.getSharedPointer, so that the statement "the registry lookup is not
attempted" is expressible. Source shape:
read id; if (id and msb_32bit) throw; rawPointer = getSharedPointer(id). -/
def loadRawPointer {ε Ptr : Type} (getSharedPointer : Nat → Except ε Ptr)
    (id : Nat) : LoadOutcome ε Ptr × List Nat :=
  if Nat.land id msb_32bit ≠ 0 then
    (LoadOutcome.formatError, [])
  else
    (lookupOutcome (getSharedPointer id), [id])

/-- Error of the raw-pointer save path of common.hpp: the
cereal::Exception thrown when registerSharedPointer reports a first
occurrence ("Raw pointer of type T* can only be saved if a
std::shared_ptr<T> with same target was saved before"). -/
inductive SaveError where
  | policyError
deriving DecidableEq, Repr

/-- Embedding of CEREAL_SAVE_FUNCTION_NAME(Archive and ar, T* const and
rawPointer) of common.hpp, lines 134-145. The argument id is the 32-bit
value returned by ar.registerSharedPointer(rawPointer) (an external
collaborator); ar is the list of 32-bit fields emitted so far. Source
shape: id = registerSharedPointer(p); ar(id); if (id and msb_32bit) throw.
Returns the archive output after the call and the error, if any. -/
def saveRawPointer (id : Nat) (ar : List Nat) : List Nat × Option SaveError :=
  let ar' := ar ++ [id]
  if Nat.land id msb_32bit ≠ 0 then
    (ar', some SaveError.policyError)
  else
    (ar', none)

/-- Model of an ordered C++ container as used by container.hpp: the
element sequence plus a capacity, since the adapter only relies on
clear, push_back and (optionally) reserve. -/
structure Container (α : Type) where
  data : List α
  capacity : Nat
deriving Repr

/-- Model of container.clear(): removes all elements; like
std::vector::clear it leaves the capacity unchanged. -/
def Container.clear {α : Type} (c : Container α) : Container α :=
  { data := [], capacity := c.capacity }

/-- Model of container.reserve(n): grows the capacity to at least n,
never touching the elements. -/
def Container.reserve {α : Type} (c : Container α) (n : Nat) : Container α :=
  { c with capacity := max c.capacity n }

/-- Model of container.push_back(x): appends one element at the end,
growing the capacity when it is exhausted. -/
def Container.push_back {α : Type} (c : Container α) (a : α) : Container α :=
  { data := c.data ++ [a], capacity := max c.capacity (c.data.length + 1) }

/-- Appends a whole list through repeated push_back; used to describe the
container produced by the load loop. -/
def pushAll {α : Type} (c : Container α) (xs : List α) : Container α :=
  List.foldl Container.push_back c xs

/-- Embedding of the element-acquisition loop of
CEREAL_LOAD_FUNCTION_NAME(Archive and ar, Container and container) in
container.hpp, lines 73-75:
for (n = 0; n < size; n++) container.push_back(load_and_construct(ar)).
The factory f is the caller-supplied cereal::load_and_construct hook: it
consumes archive state and either yields one constructed element and the
advanced state, or raises an error, which the loop propagates unchanged
(the C++ exception unwinds out of the loop). The result carries the
container, the final archive state, the propagated error if any, and the
number of times the factory was invoked. -/
def loadLoop {σ ε α : Type} (f : σ → Except ε (α × σ)) :
    Nat → Container α → σ → Container α × σ × Option ε × Nat
  | 0, c, s => (c, s, none, 0)
  | n + 1, c, s =>
    match f s with
    | Except.error e => (c, s, some e, 1)
    | Except.ok (a, s') =>
      let r := loadLoop f n (c.push_back a) s'
      (r.1, r.2.1, r.2.2.1, r.2.2.2 + 1)

/-- Embedding of the full construction-hook container load of
container.hpp, lines 60-76: read the size tag, clear the container,
reserve (the CEREAL_HAS_CPP17 branch, taken when
has_container_reserve holds), then run the element loop. readLength
models ar(make_size_tag(size)); f models cereal::load_and_construct. -/
def loadContainer {σ ε α : Type} (readLength : σ → Nat × σ)
    (f : σ → Except ε (α × σ)) (container : Container α) (s : σ) :
    Container α × σ × Option ε × Nat :=
  let p := readLength s
  let c1 := container.clear
  let c2 := c1.reserve p.1
  loadLoop f p.1 c2 p.2

/-- Variant of loadContainer that skips the reserve step, as when
has_container_reserve is false or CEREAL_HAS_CPP17 is not defined; used
to state that reservation is a pure optimization. -/
def loadContainerNoReserve {σ ε α : Type} (readLength : σ → Nat × σ)
    (f : σ → Except ε (α × σ)) (container : Container α) (s : σ) :
    Container α × σ × Option ε × Nat :=
  let p := readLength s
  let c1 := container.clear
  loadLoop f p.1 c1 p.2

/-- Runs the factory n times from state s, collecting the produced
elements in order; none when some invocation fails. Describes, purely,
what a stream holding n decodable elements contains. -/
def decodeList {σ ε α : Type} (f : σ → Except ε (α × σ)) :
    Nat → σ → Option (List α × σ)
  | 0, s => some ([], s)
  | n + 1, s =>
    match f s with
    | Except.error _ => none
    | Except.ok (a, s') =>
      match decodeList f n s' with
      | none => none
      | some (xs, s'') => some (a :: xs, s'')

/-- Canonical element codec over a plain list stream: decoding takes the
head element and fails on an exhausted stream. -/
def listDecode {α : Type} : List α → Except Unit (α × List α)
  | [] => Except.error ()
  | a :: rest => Except.ok (a, rest)

/-- Modelled from the spec: the state of the identity registry behind
ar.registerSharedPointer, which is declared in cereal/cereal.hpp outside
the shown sources. Owner handles (addresses) map to numeric identities;
nextId is the next unused identity, allocated monotonically starting at
1, above the reserved sentinel 0. -/
structure Registry where
  ids : List (Nat × Nat)
  nextId : Nat
deriving DecidableEq, Repr

/-- Registry state at the start of a save session: empty mapping, first
allocatable identity 1. -/
def Registry.init : Registry := ⟨[], 1⟩

/-- Modelled from the spec: registerOwner, the operation behind
ar.registerSharedPointer (cereal/cereal.hpp, outside the shown sources).
If the owner was registered before in this session, its existing
identity is returned unchanged; otherwise the next unused identity is
allocated, the mapping recorded, and the identity returned with the
first-occurrence role flag (bit 31) set, telling the caller to also
serialize the defining payload. -/
def registerOwner (r : Registry) (o : Nat) : Registry × Nat :=
  match r.ids.lookup o with
  | some id => (r, id)
  | none =>
    (⟨r.ids ++ [(o, r.nextId)], r.nextId + 1⟩, Nat.lor r.nextId msb_32bit)

/-- Model of a C++ enumeration type whose fixed underlying unsigned
integer type has bit width w: its values are exactly the integers below
2 ^ w. -/
structure EnumValue (w : Nat) where
  val : Nat
  isLt : val < 2 ^ w

/-- Embedding of CEREAL_SAVE_MINIMAL_FUNCTION_NAME for enum types
(common.hpp, lines 92-98): returns the value converted to the enum's
underlying integer type, static_cast to base_type. -/
def save_minimal_enum {w : Nat} (t : EnumValue w) : Nat := t.val

/-- Embedding of CEREAL_LOAD_MINIMAL_FUNCTION_NAME for enum types
(common.hpp, lines 101-107): assigns the underlying-type value back as
the enum type (reinterpret_cast of the base_type value). The reduction
modulo 2 ^ w records that the value is reinterpreted as a w-bit
pattern; on every actual base_type value it is the identity. -/
def load_minimal_enum (w : Nat) (value : Nat) : EnumValue w :=
  ⟨value % 2 ^ w, Nat.mod_lt _ (by positivity)⟩

theorem pushAll_data {α : Type} (xs : List α) (c : Container α) :
    (pushAll c xs).data = c.data ++ xs := by
  induction xs generalizing c with
  | nil => simp [pushAll]
  | cons a xs ih =>
    simp [pushAll, List.foldl_cons] at ih ⊢
    rw [ih]
    simp [Container.push_back]

theorem loadLoop_split {σ ε α : Type} (f : σ → Except ε (α × σ))
    (k r : Nat) (s s' : σ) (xs : List α) (c : Container α)
    (h : decodeList f k s = some (xs, s')) :
    loadLoop f (k + r) c s =
      ((loadLoop f r (pushAll c xs) s').1,
        (loadLoop f r (pushAll c xs) s').2.1,
        (loadLoop f r (pushAll c xs) s').2.2.1,
        (loadLoop f r (pushAll c xs) s').2.2.2 + k) := by
  induction k generalizing s c xs with
  | zero =>
    simp only [decodeList, Option.some.injEq, Prod.mk.injEq] at h
    obtain ⟨hxs, hs⟩ := h
    subst hxs
    subst hs
    simp [pushAll]
  | succ k ih =>
    have hidx : k + 1 + r = (k + r) + 1 := by omega
    rw [hidx]
    simp only [decodeList] at h
    cases hf : f s with
    | error e => simp [hf] at h
    | ok p =>
      obtain ⟨a, s₁⟩ := p
      simp only [hf] at h
      cases hd : decodeList f k s₁ with
      | none => simp [hd] at h
      | some q =>
        obtain ⟨ys, s₂⟩ := q
        simp only [hd, Option.some.injEq, Prod.mk.injEq] at h
        obtain ⟨hxs, hs⟩ := h
        subst hxs
        subst hs
        simp only [loadLoop, hf]
        rw [ih _ _ _ hd]
        simp only [pushAll, List.foldl_cons, Prod.mk.injEq, true_and]
        omega

theorem loadLoop_of_decodeList {σ ε α : Type} (f : σ → Except ε (α × σ))
    (n : Nat) (s s' : σ) (xs : List α) (c : Container α)
    (h : decodeList f n s = some (xs, s')) :
    loadLoop f n c s = (pushAll c xs, s', none, n) := by
  have := loadLoop_split f n 0 s s' xs c h
  simpa [loadLoop] using this

theorem decodeList_length {σ ε α : Type} (f : σ → Except ε (α × σ))
    (n : Nat) (s s' : σ) (xs : List α)
    (h : decodeList f n s = some (xs, s')) : xs.length = n := by
  induction n generalizing s s' xs with
  | zero =>
    simp only [decodeList, Option.some.injEq, Prod.mk.injEq] at h
    simp [h.1.symm]
  | succ n ih =>
    simp only [decodeList] at h
    cases hf : f s with
    | error e => simp [hf] at h
    | ok p =>
      obtain ⟨a, s₁⟩ := p
      simp only [hf] at h
      cases hd : decodeList f n s₁ with
      | none => simp [hd] at h
      | some q =>
        obtain ⟨ys, s₂⟩ := q
        simp only [hd, Option.some.injEq, Prod.mk.injEq] at h
        obtain ⟨hxs, hs⟩ := h
        subst hxs
        simp [ih _ _ _ hd]

theorem decodeList_listDecode {α : Type} (xs rest : List α) :
    decodeList listDecode xs.length (xs ++ rest) = some (xs, rest) := by
  induction xs with
  | nil => simp [decodeList]
  | cons a xs ih => simp [decodeList, listDecode, ih]

theorem loadLoop_error_of_decodeList {σ ε α : Type}
    (f : σ → Except ε (α × σ)) (k m : Nat) (s s' : σ) (xs : List α)
    (c : Container α) (e : ε)
    (h : decodeList f k s = some (xs, s')) (he : f s' = Except.error e) :
    loadLoop f (k + m + 1) c s = (pushAll c xs, s', some e, xs.length + 1) := by
  have hidx : k + m + 1 = k + (m + 1) := by omega
  rw [hidx, loadLoop_split f k (m + 1) s s' xs c h]
  have hk := decodeList_length f k s s' xs h
  simp only [loadLoop, he, Prod.mk.injEq, true_and]
  omega

theorem loadLoop_capacity_irrelevant {σ ε α : Type}
    (f : σ → Except ε (α × σ)) (n : Nat) (s : σ) (c c' : Container α)
    (h : c.data = c'.data) :
    (loadLoop f n c s).1.data = (loadLoop f n c' s).1.data ∧
      (loadLoop f n c s).2 = (loadLoop f n c' s).2 := by
  induction n generalizing s c c' with
  | zero => simp [loadLoop, h]
  | succ n ih =>
    cases hf : f s with
    | error e => simp [loadLoop, hf, h]
    | ok p =>
      obtain ⟨a, s₁⟩ := p
      have hd : (c.push_back a).data = (c'.push_back a).data := by
        simp [Container.push_back, h]
      have := ih s₁ (c.push_back a) (c'.push_back a) hd
      simp only [loadLoop, hf]
      exact ⟨this.1, by rw [this.2]⟩

end Cereal

namespace Cereal

/-- C1: on the raw-pointer load path, an identity with the role flag
(bit 31) set fails with the Format Error exception for every possible
registry, and the registry lookup log is empty: the lookup is never
attempted, regardless of whether the identity would resolve. -/
theorem load_msb_set_formatError {ε Ptr : Type}
    (getSharedPointer : Nat → Except ε Ptr) (id : Nat)
    (h : Nat.land id msb_32bit ≠ 0) :
    loadRawPointer getSharedPointer id = (LoadOutcome.formatError, []) := by
  simp [loadRawPointer, h]

/-- Witness for C1 at the concrete identity 2 ^ 31 and a registry that
would resolve every identity. -/
theorem load_msb_set_formatError_witness :
    Nat.land (2 ^ 31) msb_32bit ≠ 0 ∧
      loadRawPointer (fun i => Except.ok (i + 7)) (2 ^ 31) =
        ((LoadOutcome.formatError : LoadOutcome Unit Nat), []) :=
  ⟨by decide, load_msb_set_formatError (fun i => Except.ok (i + 7)) (2 ^ 31)
    (by decide)⟩

/-- C2: on the raw-pointer save path, if the identity returned by
registerSharedPointer carries the first-occurrence role flag (bit 31),
the save fails with the Policy Error exception; it never silently
succeeds (the error component is never none in that case). -/
theorem save_msb_set_policyError (id : Nat) (ar : List Nat)
    (h : Nat.land id msb_32bit ≠ 0) :
    (saveRawPointer id ar).2 = some SaveError.policyError := by
  simp [saveRawPointer, h]

/-- Witness for C2 at a concrete flagged identity. -/
theorem save_msb_set_policyError_witness :
    Nat.land (2 ^ 31 + 5) msb_32bit ≠ 0 ∧
      (saveRawPointer (2 ^ 31 + 5) [3]).2 = some SaveError.policyError :=
  ⟨by decide, save_msb_set_policyError (2 ^ 31 + 5) [3] (by decide)⟩

/-- C8: on the raw-pointer save path the identity field is emitted to the
archive before the first-occurrence check, so in the failing case the
archive output already ends with the identity: the archive state is
mutated even when the Policy Error is raised. -/
theorem save_emits_id_before_check (id : Nat) (ar : List Nat)
    (h : Nat.land id msb_32bit ≠ 0) :
    saveRawPointer id ar = (ar ++ [id], some SaveError.policyError) := by
  simp [saveRawPointer, h]

/-- Witness for C8 at a concrete flagged identity and nonempty prior
archive output. -/
theorem save_emits_id_before_check_witness :
    Nat.land (2 ^ 31) msb_32bit ≠ 0 ∧
      saveRawPointer (2 ^ 31) [1, 2] =
        ([1, 2] ++ [2 ^ 31], some SaveError.policyError) :=
  ⟨by decide, save_emits_id_before_check (2 ^ 31) [1, 2] (by decide)⟩

/-- C10: on the raw-pointer load path, the only identities rejected are
those with bit 31 set: any identity passing the flag check, in particular
the sentinel identity 0, proceeds to the registry lookup (the lookup log
is exactly that identity) and the pointer is bound to whatever the
registry resolves, rather than producing an error. -/
theorem load_msb_clear_resolves {ε Ptr : Type}
    (getSharedPointer : Nat → Except ε Ptr) (id : Nat)
    (h : Nat.land id msb_32bit = 0) :
    loadRawPointer getSharedPointer id =
      (lookupOutcome (getSharedPointer id), [id]) := by
  simp [loadRawPointer, h]

/-- Witness for C10 at the sentinel identity 0: it passes the flag check
and the lookup is attempted with identity 0, binding the pointer to the
registry's answer for 0. -/
theorem load_msb_clear_resolves_witness :
    Nat.land 0 msb_32bit = 0 ∧
      loadRawPointer (fun i => Except.ok (i + 7)) 0 =
        ((LoadOutcome.ok 7 : LoadOutcome Unit Nat), [0]) :=
  ⟨by decide, load_msb_clear_resolves (fun i => Except.ok (i + 7)) 0
    (by decide)⟩

/-- C3: on the construction-hook load path with declared element count N,
over archive state whose next N elements decode successfully through the
factory, the caller-supplied load_and_construct factory is invoked
exactly N times (the invocation count of the loop equals N) and the
resulting container holds exactly the N factory outputs in order: one
element per invocation. The adapter is parametric in the element type
and owns no default-construction operation, so no element is ever
obtained except through the factory. -/
theorem load_hook_factory_once_per_element {σ ε α : Type}
    (f : σ → Except ε (α × σ)) (N : Nat) (s s' : σ) (xs : List α)
    (c : Container α) (h : decodeList f N s = some (xs, s')) :
    loadContainer (fun t => (N, t)) f c s =
        (pushAll ((c.clear).reserve N) xs, s', none, N) ∧
      xs.length = N := by
  refine ⟨?_, decodeList_length f N s s' xs h⟩
  simp only [loadContainer]
  exact loadLoop_of_decodeList f N s s' xs _ h

/-- Witness for C3 at a concrete two-element stream and a nonempty
initial container. -/
theorem load_hook_factory_once_per_element_witness :
    decodeList listDecode 2 [4, 5] = some ([4, 5], ([] : List Nat)) ∧
      (loadContainer (fun t => (2, t)) listDecode ⟨[9], 1⟩ [4, 5] =
          (⟨[4, 5], 2⟩, ([] : List Nat), none, 2) ∧
        ([4, 5] : List Nat).length = 2) :=
  ⟨by decide,
    load_hook_factory_once_per_element listDecode 2 [4, 5] [] [4, 5]
      ⟨[9], 1⟩ (by decide)⟩

/-- C4: for an input stream holding a length N followed by N encoded
elements (the canonical list stream, whose element decode takes the next
streamed value) and for every initial container, the load reads the
length, clears, reserves and appends exactly the N streamed elements in
order: the resulting element sequence is exactly the streamed list
(so it has length N), the stream cursor ends past the consumed
elements and no error occurs. Because the initial container is
universally quantified and absent from the result's elements, the result
does not depend on the container's prior contents. -/
theorem load_container_stream_roundtrip {α : Type} (xs rest : List α)
    (c : Container α) :
    (loadContainer (fun t => (xs.length, t)) listDecode c (xs ++ rest)).1.data
        = xs ∧
      (loadContainer (fun t => (xs.length, t)) listDecode c (xs ++ rest)).1.data.length
        = xs.length ∧
      (loadContainer (fun t => (xs.length, t)) listDecode c (xs ++ rest)).2
        = (rest, none, xs.length) := by
  have h := decodeList_listDecode xs rest
  have h2 := loadLoop_of_decodeList listDecode xs.length (xs ++ rest) rest xs
      ((c.clear).reserve xs.length) h
  simp only [loadContainer]
  rw [h2]
  simp [pushAll_data, Container.clear, Container.reserve]

/-- C6: the capacity-reservation step is a pure optimization: for every
length reader, every factory, every initial container and every stream
state, the load performing the reserve call and the load skipping it
produce equal resulting containers in the C++ sense (identical element
sequences), along with the same final stream state, the same error and
the same factory invocation count. -/
theorem load_reserve_is_pure_optimization {σ ε α : Type}
    (readLength : σ → Nat × σ) (f : σ → Except ε (α × σ))
    (c : Container α) (s : σ) :
    (loadContainer readLength f c s).1.data =
        (loadContainerNoReserve readLength f c s).1.data ∧
      (loadContainer readLength f c s).2 =
        (loadContainerNoReserve readLength f c s).2 := by
  have h := loadLoop_capacity_irrelevant f (readLength s).1 (readLength s).2
      ((c.clear).reserve (readLength s).1) (c.clear)
      (by simp [Container.clear, Container.reserve])
  simpa only [loadContainer, loadContainerNoReserve] using h

/-- C7: the adapter performs no bounds pre-check of the declared length N
against the remaining stream: when the first k elements decode
successfully, the next element decode fails with error e and k < N, the
container load fails with exactly that error e — propagated unchanged,
no retry or suppression — with exactly the first k elements appended and
the factory invoked k + 1 times. -/
theorem load_propagates_decode_error {σ ε α : Type}
    (f : σ → Except ε (α × σ)) (N k : Nat) (s s' : σ) (xs : List α)
    (c : Container α) (e : ε)
    (h : decodeList f k s = some (xs, s')) (hk : xs.length = k)
    (he : f s' = Except.error e) (hkN : k < N) :
    (loadContainer (fun t => (N, t)) f c s).1.data = xs ∧
      (loadContainer (fun t => (N, t)) f c s).2 = (s', some e, k + 1) := by
  obtain ⟨m, hm⟩ : ∃ m, N = k + m + 1 := ⟨N - k - 1, by omega⟩
  subst hm
  have h2 := loadLoop_error_of_decodeList f k m s s' xs
      ((c.clear).reserve (k + m + 1)) e h he
  simp only [loadContainer]
  rw [h2]
  simp [pushAll_data, Container.clear, Container.reserve, hk]

/-- Witness for C7: a stream of two decodable elements under a declared
length of four; the third decode fails and the error surfaces with the
two elements appended and three factory invocations. -/
theorem load_propagates_decode_error_witness :
    decodeList listDecode 2 [5, 7] = some ([5, 7], ([] : List Nat)) ∧
      ([5, 7] : List Nat).length = 2 ∧
      listDecode ([] : List Nat) = Except.error () ∧ 2 < 4 ∧
      ((loadContainer (fun t => (4, t)) listDecode ⟨[1], 0⟩ [5, 7]).1.data
          = [5, 7] ∧
        (loadContainer (fun t => (4, t)) listDecode ⟨[1], 0⟩ [5, 7]).2
          = (([] : List Nat), some (), 3)) :=
  ⟨by decide, by decide, rfl, by decide,
    load_propagates_decode_error listDecode 4 2 [5, 7] [] [5, 7] ⟨[1], 0⟩ ()
      (by decide) (by decide) rfl (by decide)⟩

theorem land_msb_eq_zero (n : Nat) (h : n < msb_32bit) :
    Nat.land n msb_32bit = 0 := by
  simp only [msb_32bit] at h ⊢
  show n &&& 2 ^ 31 = 0
  rw [Nat.and_two_pow, Nat.testBit_lt_two_pow h]
  simp

theorem land_lor_msb_ne_zero (n : Nat) (h : n < msb_32bit) :
    Nat.land (Nat.lor n msb_32bit) msb_32bit ≠ 0 := by
  simp only [msb_32bit] at h ⊢
  show (n ||| 2 ^ 31) &&& 2 ^ 31 ≠ 0
  rw [Nat.and_two_pow, Nat.testBit_lor, Nat.testBit_lt_two_pow h,
    Nat.testBit_two_pow_self]
  simp

theorem land_lor_msb_mask (n : Nat) (h : n < msb_32bit) :
    Nat.land (Nat.lor n msb_32bit) (msb_32bit - 1) = n := by
  simp only [msb_32bit] at h ⊢
  show (n ||| 2 ^ 31) &&& 2 ^ 31 - 1 = n
  rw [Nat.and_pow_two_sub_one_eq_mod]
  apply Nat.eq_of_testBit_eq
  intro j
  simp only [Nat.testBit_mod_two_pow, Nat.testBit_lor]
  by_cases hj : j < 31
  · simp [hj, Nat.testBit_two_pow_of_ne (show 31 ≠ j by omega)]
  · have hn : n < 2 ^ j :=
      lt_of_lt_of_le h (Nat.pow_le_pow_right (by norm_num) (by omega))
    simp [hj, Nat.testBit_lt_two_pow hn]

theorem lookup_append_of_fresh {β : Type} (l : List (Nat × β)) (o : Nat)
    (v : β) (h : l.lookup o = none) : (l ++ [(o, v)]).lookup o = some v := by
  induction l with
  | nil => simp [List.lookup]
  | cons p l ih =>
    obtain ⟨k, b⟩ := p
    cases hk : o == k with
    | true => simp [List.lookup, hk] at h
    | false =>
      simp only [List.lookup, hk] at h
      simpa [List.lookup, hk] using ih h

/-- C5: registering the same owner twice within one save session returns
the same numeric identity both times — masking the role flag off the
first result yields exactly the second result — the role flag (bit 31)
is set on the first registration only (so the defining payload is
emitted exactly once, on the first occurrence), and the second
registration leaves the registry unchanged. Hypotheses: the owner is not
yet registered and the session has not exhausted the 31-bit identity
space. -/
theorem registerOwner_idempotent (r : Registry) (o : Nat)
    (hfresh : r.ids.lookup o = none) (hfit : r.nextId < msb_32bit) :
    Nat.land (registerOwner r o).2 msb_32bit ≠ 0 ∧
      Nat.land (registerOwner (registerOwner r o).1 o).2 msb_32bit = 0 ∧
      Nat.land (registerOwner r o).2 (msb_32bit - 1) =
        (registerOwner (registerOwner r o).1 o).2 ∧
      (registerOwner (registerOwner r o).1 o).1 = (registerOwner r o).1 := by
  have hsecond :
      ((⟨r.ids ++ [(o, r.nextId)], r.nextId + 1⟩ : Registry).ids.lookup o) =
        some r.nextId := lookup_append_of_fresh r.ids o r.nextId hfresh
  simp only [registerOwner, hfresh, hsecond]
  exact ⟨land_lor_msb_ne_zero r.nextId hfit, land_msb_eq_zero r.nextId hfit,
    land_lor_msb_mask r.nextId hfit, trivial⟩

/-- Witness for C5 on a fresh session registering owner 100 twice: the
first call returns identity 1 with the role flag set, the second returns
the bare identity 1 and leaves the registry unchanged. -/
theorem registerOwner_idempotent_witness :
    Registry.init.ids.lookup 100 = none ∧ Registry.init.nextId < msb_32bit ∧
      (Nat.land (registerOwner Registry.init 100).2 msb_32bit ≠ 0 ∧
        Nat.land (registerOwner (registerOwner Registry.init 100).1 100).2
            msb_32bit = 0 ∧
        Nat.land (registerOwner Registry.init 100).2 (msb_32bit - 1) =
          (registerOwner (registerOwner Registry.init 100).1 100).2 ∧
        (registerOwner (registerOwner Registry.init 100).1 100).1 =
          (registerOwner Registry.init 100).1) :=
  ⟨rfl, by decide, registerOwner_idempotent Registry.init 100 rfl (by decide)⟩

/-- C9: enum round trip — saving any enum value through the minimal save
(the cast to the underlying integer type) and loading the resulting
integer back through the minimal load restores the original enum value,
for every underlying width and every value. -/
theorem enum_save_load_roundtrip {w : Nat} (t : EnumValue w) :
    load_minimal_enum w (save_minimal_enum t) = t := by
  cases t with
  | mk v hv =>
    simp [load_minimal_enum, save_minimal_enum, Nat.mod_eq_of_lt hv]

end Cereal
